import Mathlib

/-!
Verification development for the textX encrypted-document subsystem.

The JavaScript sources embedded here:
  * `client/src/pages/SettingsPage.jsx` (encryption utility module):
    `deriveKey`, `encryptText`, `decryptText`, `isEncryptedData`,
    `validatePasswordStrength`, `getDefaultPassword`, and the
    string/base64 buffer helpers;
  * `client/src/components/EncryptionManager.jsx`:
    `formatEncryptedForSave`, `parseEncryptedFromSave`;
  * `client/src/pages/EditorPage.jsx`: `handleOpenDocument`,
    `handleSaveDocument`;
  * the server document routes: `encryptText` (server) and
    `POST /api/documents/save`.

Modeling conventions:
  * Byte buffers (`Uint8Array`/`ArrayBuffer`/Node `Buffer`) are `List Nat`
    with each element `< 256`.
  * A nullable JavaScript string is `Option String` (`none` = `null`).
  * Randomness (`crypto.getRandomValues`, `crypto.randomBytes`) is passed
    in explicitly as byte-list parameters, so every function is a pure
    function of its inputs plus the random tape it drew.
  * The WebCrypto PBKDF2 / AES-GCM primitives are modeled by executable
    functions that satisfy exactly the contracts the code relies on:
    key derivation is a deterministic function of (password, salt), and
    AES-GCM is an authenticated cipher whose decryption inverts
    encryption under the same key and IV and checks an authentication
    tag.  The JSON text layer is modeled semantically: a file's content
    either is the serialization of a JSON object or is plain text that
    fails `JSON.parse`.
-/

/-! ## JavaScript value modeling -/

/-- A JavaScript string variable that may hold `null`. -/
def JsStr : Type := Option String

instance : DecidableEq JsStr := by unfold JsStr; infer_instance

/-- ECMAScript ToString as applied by `TextEncoder().encode` to a
nullable string argument: `null` is converted to the string `"null"`. -/
def jsToString (s : JsStr) : String :=
  match s with
  | none => "null"
  | some s => s

/-- JavaScript truthiness of a possibly-absent string value:
`undefined`/`null` and the empty string are falsy, every other string is
truthy. -/
def truthy (s : Option String) : Bool :=
  match s with
  | none => false
  | some s => s ≠ ""

/-- Characters removed by `String.prototype.trim` (the set exercised by
markdown documents: space, tab, line feed, carriage return, vertical
tab, form feed, no-break space, BOM, line/paragraph separator). -/
def isJsWhitespace (c : Char) : Bool :=
  c = ' ' || c = '\t' || c = '\n' || c = '\r' || c.toNat = 11 ||
    c.toNat = 12 || c.toNat = 0xA0 || c.toNat = 0xFEFF ||
    c.toNat = 0x2028 || c.toNat = 0x2029

/-- Model of `String.prototype.trim`. -/
def jsTrim (s : String) : String :=
  ⟨((s.toList.dropWhile isJsWhitespace).reverse.dropWhile
      isJsWhitespace).reverse⟩

/-- Model of the JavaScript `length` property: the number of UTF-16 code
units of the string (astral characters count twice). -/
def jsStrLen (s : String) : Nat :=
  (s.toList.map (fun c => if c.toNat ≥ 0x10000 then 2 else 1)).sum

/-! ## UTF-8 (TextEncoder / TextDecoder) -/

/-- UTF-8 encoding of one Unicode scalar value, as produced by
`TextEncoder` for each character of a well-formed string. -/
def utf8EncodeChar (c : Char) : List Nat :=
  let n := c.toNat
  if n < 0x80 then [n]
  else if n < 0x800 then [0xC0 + n / 64, 0x80 + n % 64]
  else if n < 0x10000 then
    [0xE0 + n / 4096, 0x80 + (n / 64) % 64, 0x80 + n % 64]
  else
    [0xF0 + n / 0x40000, 0x80 + (n / 4096) % 64, 0x80 + (n / 64) % 64,
      0x80 + n % 64]

/-- UTF-8 encoding of a character list. -/
def utf8EncodeList : List Char → List Nat
  | [] => []
  | c :: cs => utf8EncodeChar c ++ utf8EncodeList cs

/-- Strict UTF-8 decoding (rejects truncated, overlong and surrogate
sequences); `TextDecoder` substitutes U+FFFD on malformed input instead
of failing, but no path exercised by the claims decodes malformed
bytes.  Continuation bytes are read with `List.getD` so that the
recursion stays on the tail of the list. -/
def utf8DecodeList : List Nat → Option (List Char)
  | [] => some []
  | b :: bs =>
    if b < 0x80 then (utf8DecodeList bs).map (Char.ofNat b :: ·)
    else if 0xC2 ≤ b ∧ b < 0xE0 then
      if 1 ≤ bs.length ∧ 0x80 ≤ bs.getD 0 0 ∧ bs.getD 0 0 < 0xC0 then
        (utf8DecodeList (bs.drop 1)).map
          (Char.ofNat ((b - 0xC0) * 64 + (bs.getD 0 0 - 0x80)) :: ·)
      else none
    else if 0xE0 ≤ b ∧ b < 0xF0 then
      if 2 ≤ bs.length ∧ (0x80 ≤ bs.getD 0 0 ∧ bs.getD 0 0 < 0xC0) ∧
          (0x80 ≤ bs.getD 1 0 ∧ bs.getD 1 0 < 0xC0) ∧
          0x800 ≤ (b - 0xE0) * 4096 + (bs.getD 0 0 - 0x80) * 64 +
            (bs.getD 1 0 - 0x80) ∧
          ¬ (0xD800 ≤ (b - 0xE0) * 4096 + (bs.getD 0 0 - 0x80) * 64 +
              (bs.getD 1 0 - 0x80) ∧
            (b - 0xE0) * 4096 + (bs.getD 0 0 - 0x80) * 64 +
              (bs.getD 1 0 - 0x80) < 0xE000) then
        (utf8DecodeList (bs.drop 2)).map
          (Char.ofNat ((b - 0xE0) * 4096 + (bs.getD 0 0 - 0x80) * 64 +
            (bs.getD 1 0 - 0x80)) :: ·)
      else none
    else if 0xF0 ≤ b ∧ b < 0xF5 then
      if 3 ≤ bs.length ∧ (0x80 ≤ bs.getD 0 0 ∧ bs.getD 0 0 < 0xC0) ∧
          (0x80 ≤ bs.getD 1 0 ∧ bs.getD 1 0 < 0xC0) ∧
          (0x80 ≤ bs.getD 2 0 ∧ bs.getD 2 0 < 0xC0) ∧
          0x10000 ≤ (b - 0xF0) * 0x40000 + (bs.getD 0 0 - 0x80) * 4096 +
            (bs.getD 1 0 - 0x80) * 64 + (bs.getD 2 0 - 0x80) ∧
          (b - 0xF0) * 0x40000 + (bs.getD 0 0 - 0x80) * 4096 +
            (bs.getD 1 0 - 0x80) * 64 + (bs.getD 2 0 - 0x80) < 0x110000 then
        (utf8DecodeList (bs.drop 3)).map
          (Char.ofNat ((b - 0xF0) * 0x40000 + (bs.getD 0 0 - 0x80) * 4096 +
            (bs.getD 1 0 - 0x80) * 64 + (bs.getD 2 0 - 0x80)) :: ·)
      else none
    else none
termination_by l => l.length
decreasing_by all_goals (simp only [List.length_drop, List.length_cons]; omega)

theorem char_toNat_valid (c : Char) :
    c.toNat < 0xD800 ∨ (0xDFFF < c.toNat ∧ c.toNat < 0x110000) := c.valid

theorem utf8EncodeChar_lt (c : Char) : ∀ b ∈ utf8EncodeChar c, b < 256 := by
  have h : c.toNat < 0x110000 := by
    have := char_toNat_valid c; omega
  intro b hb
  simp only [utf8EncodeChar] at hb
  split at hb
  · simp at hb; omega
  · split at hb
    · simp at hb; rcases hb with hb | hb <;> omega
    · split at hb
      · simp at hb; rcases hb with hb | hb | hb <;> omega
      · simp at hb; rcases hb with hb | hb | hb | hb <;> omega

theorem utf8EncodeList_lt (cs : List Char) :
    ∀ b ∈ utf8EncodeList cs, b < 256 := by
  induction cs with
  | nil => intro b hb; simp [utf8EncodeList] at hb
  | cons c cs ih =>
    intro b hb
    simp only [utf8EncodeList, List.mem_append] at hb
    rcases hb with hb | hb
    · exact utf8EncodeChar_lt c b hb
    · exact ih b hb

theorem utf8_decode_encode_char (c : Char) (bs : List Nat) :
    utf8DecodeList (utf8EncodeChar c ++ bs) =
      (utf8DecodeList bs).map (c :: ·) := by
  have hval := char_toNat_valid c
  have hofNat : Char.ofNat c.toNat = c := Char.ofNat_toNat c
  by_cases h1 : c.toNat < 0x80
  · simp only [utf8EncodeChar, if_pos h1, List.cons_append,
      List.nil_append]
    rw [utf8DecodeList]
    rw [if_pos h1, hofNat]
  · by_cases h2 : c.toNat < 0x800
    · simp only [utf8EncodeChar, if_neg h1, if_pos h2,
        List.cons_append, List.nil_append]
      rw [utf8DecodeList]
      simp only [List.getD_cons_zero, List.getD_cons_succ,
        List.length_cons, List.drop_succ_cons, List.drop_zero]
      have hb0 : ¬ (0xC0 + c.toNat / 64 < 0x80) := by omega
      have hb1 : 0xC2 ≤ 0xC0 + c.toNat / 64 ∧
          0xC0 + c.toNat / 64 < 0xE0 := by omega
      have hin : 1 ≤ bs.length + 1 ∧ 0x80 ≤ 0x80 + c.toNat % 64 ∧
          0x80 + c.toNat % 64 < 0xC0 := by omega
      rw [if_neg hb0, if_pos hb1, if_pos hin]
      have hn : (0xC0 + c.toNat / 64 - 0xC0) * 64 +
          (0x80 + c.toNat % 64 - 0x80) = c.toNat := by omega
      rw [hn, hofNat]
    · by_cases h3 : c.toNat < 0x10000
      · simp only [utf8EncodeChar, if_neg h1, if_neg h2, if_pos h3,
          List.cons_append, List.nil_append]
        rw [utf8DecodeList]
        simp only [List.getD_cons_zero, List.getD_cons_succ,
          List.length_cons, List.drop_succ_cons, List.drop_zero]
        have hb0 : ¬ (0xE0 + c.toNat / 4096 < 0x80) := by omega
        have hb1 : ¬ (0xC2 ≤ 0xE0 + c.toNat / 4096 ∧
            0xE0 + c.toNat / 4096 < 0xE0) := by omega
        have hb2 : 0xE0 ≤ 0xE0 + c.toNat / 4096 ∧
            0xE0 + c.toNat / 4096 < 0xF0 := by omega
        have hin : 2 ≤ bs.length + 1 + 1 ∧
            (0x80 ≤ 0x80 + c.toNat / 64 % 64 ∧
              0x80 + c.toNat / 64 % 64 < 0xC0) ∧
            (0x80 ≤ 0x80 + c.toNat % 64 ∧ 0x80 + c.toNat % 64 < 0xC0) ∧
            0x800 ≤ (0xE0 + c.toNat / 4096 - 0xE0) * 4096 +
              (0x80 + c.toNat / 64 % 64 - 0x80) * 64 +
              (0x80 + c.toNat % 64 - 0x80) ∧
            ¬ (0xD800 ≤ (0xE0 + c.toNat / 4096 - 0xE0) * 4096 +
                (0x80 + c.toNat / 64 % 64 - 0x80) * 64 +
                (0x80 + c.toNat % 64 - 0x80) ∧
              (0xE0 + c.toNat / 4096 - 0xE0) * 4096 +
                (0x80 + c.toNat / 64 % 64 - 0x80) * 64 +
                (0x80 + c.toNat % 64 - 0x80) < 0xE000) := by
          have := char_toNat_valid c
          refine ⟨by omega, by omega, by omega, by omega, by omega⟩
        rw [if_neg hb0, if_neg hb1, if_pos hb2, if_pos hin]
        have hn : (0xE0 + c.toNat / 4096 - 0xE0) * 4096 +
            (0x80 + c.toNat / 64 % 64 - 0x80) * 64 +
            (0x80 + c.toNat % 64 - 0x80) = c.toNat := by omega
        rw [hn, hofNat]
      · have h4 : c.toNat < 0x110000 := by
          have := char_toNat_valid c; omega
        simp only [utf8EncodeChar, if_neg h1, if_neg h2, if_neg h3,
          List.cons_append, List.nil_append]
        rw [utf8DecodeList]
        simp only [List.getD_cons_zero, List.getD_cons_succ,
          List.length_cons, List.drop_succ_cons, List.drop_zero]
        have hb0 : ¬ (0xF0 + c.toNat / 0x40000 < 0x80) := by omega
        have hb1 : ¬ (0xC2 ≤ 0xF0 + c.toNat / 0x40000 ∧
            0xF0 + c.toNat / 0x40000 < 0xE0) := by omega
        have hb2 : ¬ (0xE0 ≤ 0xF0 + c.toNat / 0x40000 ∧
            0xF0 + c.toNat / 0x40000 < 0xF0) := by omega
        have hb3 : 0xF0 ≤ 0xF0 + c.toNat / 0x40000 ∧
            0xF0 + c.toNat / 0x40000 < 0xF5 := by omega
        have hin : 3 ≤ bs.length + 1 + 1 + 1 ∧
            (0x80 ≤ 0x80 + c.toNat / 4096 % 64 ∧
              0x80 + c.toNat / 4096 % 64 < 0xC0) ∧
            (0x80 ≤ 0x80 + c.toNat / 64 % 64 ∧
              0x80 + c.toNat / 64 % 64 < 0xC0) ∧
            (0x80 ≤ 0x80 + c.toNat % 64 ∧ 0x80 + c.toNat % 64 < 0xC0) ∧
            0x10000 ≤ (0xF0 + c.toNat / 0x40000 - 0xF0) * 0x40000 +
              (0x80 + c.toNat / 4096 % 64 - 0x80) * 4096 +
              (0x80 + c.toNat / 64 % 64 - 0x80) * 64 +
              (0x80 + c.toNat % 64 - 0x80) ∧
            (0xF0 + c.toNat / 0x40000 - 0xF0) * 0x40000 +
              (0x80 + c.toNat / 4096 % 64 - 0x80) * 4096 +
              (0x80 + c.toNat / 64 % 64 - 0x80) * 64 +
              (0x80 + c.toNat % 64 - 0x80) < 0x110000 := by
          refine ⟨by omega, by omega, by omega, by omega, by omega, by omega⟩
        rw [if_neg hb0, if_neg hb1, if_neg hb2, if_pos hb3, if_pos hin]
        have hn : (0xF0 + c.toNat / 0x40000 - 0xF0) * 0x40000 +
            (0x80 + c.toNat / 4096 % 64 - 0x80) * 4096 +
            (0x80 + c.toNat / 64 % 64 - 0x80) * 64 +
            (0x80 + c.toNat % 64 - 0x80) = c.toNat := by omega
        rw [hn, hofNat]

theorem utf8_decode_encode (cs : List Char) :
    utf8DecodeList (utf8EncodeList cs) = some cs := by
  induction cs with
  | nil => simp [utf8EncodeList, utf8DecodeList]
  | cons c cs ih =>
    rw [utf8EncodeList, utf8_decode_encode_char, ih, Option.map_some']

/-! ## Base64 (`btoa` / `atob`, used by the buffer helpers in
`SettingsPage.jsx`) -/

/-- The base64 alphabet character for a sextet value. -/
def sextetToChar (n : Nat) : Char :=
  if n < 26 then Char.ofNat (65 + n)
  else if n < 52 then Char.ofNat (97 + (n - 26))
  else if n < 62 then Char.ofNat (48 + (n - 52))
  else if n = 62 then '+'
  else '/'

/-- The sextet value of a base64 alphabet character; 64 marks a character
outside the alphabet (`atob` throws on such characters, and on a `'='`
appearing anywhere other than the padding positions). -/
def charVal (c : Char) : Nat :=
  if 65 ≤ c.toNat ∧ c.toNat ≤ 90 then c.toNat - 65
  else if 97 ≤ c.toNat ∧ c.toNat ≤ 122 then 26 + (c.toNat - 97)
  else if 48 ≤ c.toNat ∧ c.toNat ≤ 57 then 52 + (c.toNat - 48)
  else if c.toNat = 43 then 62
  else if c.toNat = 47 then 63
  else 64

/-- Model of `btoa` on a binary string of byte values: standard base64 with
`'='` padding. -/
def b64EncodeBytes : List Nat → List Char
  | [] => []
  | [a] => [sextetToChar (a / 4), sextetToChar (a % 4 * 16), '=', '=']
  | [a, b] => [sextetToChar (a / 4), sextetToChar (a % 4 * 16 + b / 16),
      sextetToChar (b % 16 * 4), '=']
  | a :: b :: c :: rest =>
    sextetToChar (a / 4) :: sextetToChar (a % 4 * 16 + b / 16) ::
      sextetToChar (b % 16 * 4 + c / 64) :: sextetToChar (c % 64) ::
      b64EncodeBytes rest

/-- Model of `atob`: strict base64 decoding of padded groups of four characters
(the only shape `btoa` emits); `none` models the `InvalidCharacterError`
throw. -/
def b64DecodeBytes : List Char → Option (List Nat)
  | [] => some []
  | c1 :: c2 :: c3 :: c4 :: rest =>
    if charVal c1 < 64 ∧ charVal c2 < 64 then
      if c3 = '=' ∧ c4 = '=' ∧ rest = [] then
        some [charVal c1 * 4 + charVal c2 / 16]
      else if charVal c3 < 64 then
        if c4 = '=' ∧ rest = [] then
          some [charVal c1 * 4 + charVal c2 / 16,
            charVal c2 % 16 * 16 + charVal c3 / 4]
        else if charVal c4 < 64 then
          (b64DecodeBytes rest).map
            (fun tail => (charVal c1 * 4 + charVal c2 / 16) ::
              (charVal c2 % 16 * 16 + charVal c3 / 4) ::
              (charVal c3 % 4 * 64 + charVal c4) :: tail)
        else none
      else none
    else none
  | _ => none

theorem charVal_sextetToChar (n : Nat) (h : n < 64) :
    charVal (sextetToChar n) = n := by
  revert h; revert n; decide

theorem sextetToChar_ne_pad (n : Nat) (h : n < 64) :
    sextetToChar n ≠ '=' := by
  revert h; revert n; decide

theorem b64_decode_encode (bs : List Nat) (h : ∀ x ∈ bs, x < 256) :
    b64DecodeBytes (b64EncodeBytes bs) = some bs := by
  induction bs using b64EncodeBytes.induct with
  | case1 => rfl
  | case2 a =>
    have ha : a < 256 := h a (by simp)
    rw [b64EncodeBytes, b64DecodeBytes]
    rw [charVal_sextetToChar (a / 4) (by omega),
      charVal_sextetToChar (a % 4 * 16) (by omega)]
    rw [if_pos (by omega : a / 4 < 64 ∧ a % 4 * 16 < 64)]
    rw [if_pos ⟨rfl, rfl, rfl⟩]
    have : a / 4 * 4 + a % 4 * 16 / 16 = a := by omega
    rw [this]
  | case3 a b =>
    have ha : a < 256 := h a (by simp)
    have hb : b < 256 := h b (by simp)
    rw [b64EncodeBytes, b64DecodeBytes]
    rw [charVal_sextetToChar (a / 4) (by omega),
      charVal_sextetToChar (a % 4 * 16 + b / 16) (by omega),
      charVal_sextetToChar (b % 16 * 4) (by omega)]
    rw [if_pos (by omega : a / 4 < 64 ∧ a % 4 * 16 + b / 16 < 64)]
    rw [if_neg (fun hc => sextetToChar_ne_pad (b % 16 * 4) (by omega) hc.1)]
    rw [if_pos (by omega : b % 16 * 4 < 64)]
    rw [if_pos ⟨rfl, rfl⟩]
    have h1 : a / 4 * 4 + (a % 4 * 16 + b / 16) / 16 = a := by omega
    have h2 : (a % 4 * 16 + b / 16) % 16 * 16 + b % 16 * 4 / 4 = b := by
      omega
    rw [h1, h2]
  | case4 a b c rest ih =>
    have ha : a < 256 := h a (by simp)
    have hb : b < 256 := h b (by simp)
    have hc : c < 256 := h c (by simp)
    have hrest : ∀ x ∈ rest, x < 256 := fun x hx => h x (by simp [hx])
    rw [b64EncodeBytes, b64DecodeBytes]
    rw [charVal_sextetToChar (a / 4) (by omega),
      charVal_sextetToChar (a % 4 * 16 + b / 16) (by omega),
      charVal_sextetToChar (b % 16 * 4 + c / 64) (by omega),
      charVal_sextetToChar (c % 64) (by omega)]
    rw [if_pos (by omega : a / 4 < 64 ∧ a % 4 * 16 + b / 16 < 64)]
    rw [if_neg
      (fun hq => sextetToChar_ne_pad (b % 16 * 4 + c / 64) (by omega) hq.1)]
    rw [if_pos (by omega : b % 16 * 4 + c / 64 < 64)]
    rw [if_neg (fun hq => sextetToChar_ne_pad (c % 64) (by omega) hq.1)]
    rw [if_pos (by omega : c % 64 < 64)]
    rw [ih hrest]
    have h1 : a / 4 * 4 + (a % 4 * 16 + b / 16) / 16 = a := by omega
    have h2 : (a % 4 * 16 + b / 16) % 16 * 16 +
        (b % 16 * 4 + c / 64) / 4 = b := by omega
    have h3 : (b % 16 * 4 + c / 64) % 4 * 64 + c % 64 = c := by omega
    rw [Option.map_some', h1, h2, h3]

/-! ## String / buffer helpers (`SettingsPage.jsx`) -/

/-- Model of `stringToArrayBuffer`: `TextEncoder().encode(str)`. -/
def stringToArrayBuffer (s : String) : List Nat := utf8EncodeList s.toList

/-- Model of `arrayBufferToString`: `TextDecoder().decode(buffer)`.  On malformed
input `TextDecoder` substitutes U+FFFD instead of failing; that path is
modeled by the empty string and is never reached by the claims. -/
def arrayBufferToString (bs : List Nat) : String :=
  match utf8DecodeList bs with
  | some cs => ⟨cs⟩
  | none => ""

/-- Model of `arrayBufferToBase64`: bytes to a binary string, then `btoa`. -/
def arrayBufferToBase64 (bs : List Nat) : String := ⟨b64EncodeBytes bs⟩

/-- Model of `base64ToArrayBuffer`: `atob`, then the char code of every position;
`none` models the `InvalidCharacterError` throw of `atob`. -/
def base64ToArrayBuffer (s : String) : Option (List Nat) :=
  b64DecodeBytes s.toList

theorem base64_roundtrip (bs : List Nat) (h : ∀ x ∈ bs, x < 256) :
    base64ToArrayBuffer (arrayBufferToBase64 bs) = some bs :=
  b64_decode_encode bs h

theorem string_buffer_roundtrip (s : String) :
    arrayBufferToString (stringToArrayBuffer s) = s := by
  unfold arrayBufferToString stringToArrayBuffer
  rw [utf8_decode_encode]
  cases s
  rfl

/-! ## WebCrypto primitive model (PBKDF2 and AES-GCM) -/

/-- The `CryptoKey` produced by `deriveKey` in `SettingsPage.jsx`.
PBKDF2-SHA-256 with 100000 iterations is a deterministic function of the
password bytes and the salt; the claims rely only on that determinism,
so the model carries the two inputs as the key material. -/
structure DerivedKey where
  password : String
  salt : List Nat
deriving DecidableEq

/-- Model of `deriveKey(password, salt)` in `SettingsPage.jsx`:
`importKey('raw', stringToArrayBuffer(password), 'PBKDF2', ...)` followed
by `deriveKey({name: 'PBKDF2', salt, iterations: 100000, hash:
'SHA-256'}, ..., {name: 'AES-GCM', length: 256}, ...)`.  The function
performs no input validation: every password (even the empty string, or
`null`, which `TextEncoder` coerces to the string `"null"`) and every
salt (of any length) yields a key. -/
def deriveKey (password : JsStr) (salt : List Nat) : DerivedKey :=
  ⟨jsToString password, salt⟩

/-- One keystream byte of the modeled AES-GCM cipher: a deterministic
function of key, IV and stream position. -/
def ksByte (k : DerivedKey) (iv : List Nat) (i : Nat) : Nat :=
  ((stringToArrayBuffer k.password).sum * 3 + k.salt.sum * 5 +
    iv.sum * 7 + iv.length * 11 + i * 13) % 256

/-- The byte stream of the modeled cipher applied to a plaintext. -/
def streamEnc (k : DerivedKey) (iv : List Nat) : Nat → List Nat → List Nat
  | _, [] => []
  | i, b :: rest => (b + ksByte k iv i) % 256 :: streamEnc k iv (i + 1) rest

/-- The inverse byte stream. -/
def streamDec (k : DerivedKey) (iv : List Nat) : Nat → List Nat → List Nat
  | _, [] => []
  | i, b :: rest =>
    (b + 256 - ksByte k iv i) % 256 :: streamDec k iv (i + 1) rest

/-- The 16-byte GCM authentication tag over the ciphertext body. -/
def gcmTag (k : DerivedKey) (iv : List Nat) (body : List Nat) : List Nat :=
  List.replicate 16 ((body.sum + ksByte k iv 997) % 256)

/-- Model of `crypto.subtle.encrypt({name: 'AES-GCM', iv}, key, data)`:
ciphertext body with the 16-byte authentication tag appended (WebCrypto
appends the tag to the ciphertext). -/
def gcmEncrypt (k : DerivedKey) (iv : List Nat) (pt : List Nat) :
    List Nat :=
  streamEnc k iv 0 pt ++ gcmTag k iv (streamEnc k iv 0 pt)

/-- Model of `crypto.subtle.decrypt({name: 'AES-GCM', iv}, key, data)`:
splits off the trailing 16-byte tag, verifies it, and inverts the
stream; `none` models the `OperationError` rejection on tag mismatch
(the only signal for a wrong key or tampered data). -/
def gcmDecrypt (k : DerivedKey) (iv : List Nat) (ct : List Nat) :
    Option (List Nat) :=
  if ct.length < 16 then none
  else
    if ct.drop (ct.length - 16) = gcmTag k iv (ct.take (ct.length - 16))
    then some (streamDec k iv 0 (ct.take (ct.length - 16)))
    else none

theorem streamEnc_length (k : DerivedKey) (iv : List Nat) (i : Nat)
    (pt : List Nat) : (streamEnc k iv i pt).length = pt.length := by
  induction pt generalizing i with
  | nil => rfl
  | cons b rest ih => simp [streamEnc, ih]

theorem streamEnc_lt (k : DerivedKey) (iv : List Nat) (i : Nat)
    (pt : List Nat) : ∀ x ∈ streamEnc k iv i pt, x < 256 := by
  induction pt generalizing i with
  | nil => intro x hx; simp [streamEnc] at hx
  | cons b rest ih =>
    intro x hx
    simp only [streamEnc, List.mem_cons] at hx
    rcases hx with hx | hx
    · omega
    · exact ih (i + 1) x hx

theorem streamDec_streamEnc (k : DerivedKey) (iv : List Nat) (i : Nat)
    (pt : List Nat) (h : ∀ x ∈ pt, x < 256) :
    streamDec k iv i (streamEnc k iv i pt) = pt := by
  induction pt generalizing i with
  | nil => rfl
  | cons b rest ih =>
    have hb : b < 256 := h b (by simp)
    have hks : ksByte k iv i < 256 := Nat.mod_lt _ (by omega)
    simp only [streamEnc, streamDec, List.cons.injEq]
    refine ⟨by omega, ih (i + 1) (fun x hx => h x (by simp [hx]))⟩

theorem gcmDecrypt_gcmEncrypt (k : DerivedKey) (iv : List Nat)
    (pt : List Nat) (h : ∀ x ∈ pt, x < 256) :
    gcmDecrypt k iv (gcmEncrypt k iv pt) = some pt := by
  unfold gcmDecrypt gcmEncrypt
  have hlen : (streamEnc k iv 0 pt ++
      gcmTag k iv (streamEnc k iv 0 pt)).length = pt.length + 16 := by
    simp [streamEnc_length, gcmTag]
  rw [hlen]
  have hsub : pt.length + 16 - 16 = (streamEnc k iv 0 pt).length := by
    simp [streamEnc_length]
  rw [if_neg (by omega)]
  rw [hsub, List.drop_left, List.take_left]
  rw [if_pos rfl]
  rw [streamDec_streamEnc k iv 0 pt h]

theorem gcmEncrypt_lt (k : DerivedKey) (iv : List Nat) (pt : List Nat) :
    ∀ x ∈ gcmEncrypt k iv pt, x < 256 := by
  intro x hx
  simp only [gcmEncrypt, List.mem_append] at hx
  rcases hx with hx | hx
  · exact streamEnc_lt k iv 0 pt x hx
  · simp only [gcmTag, List.mem_replicate] at hx
    omega

/-! ## JSON objects and file content -/

/-- A JSON object as the envelope helpers see it: the fields this
program ever reads or writes, each possibly absent.  String values
only, matching every envelope this program produces. -/
structure JsonDoc where
  encrypted : Option String
  salt : Option String
  iv : Option String
  algorithm : Option String
  version : Option String
  createdAt : Option String
deriving DecidableEq

/-- The raw content of a document file, modeled semantically with
respect to `JSON.parse`: either text on which `JSON.parse` throws
(`plainText`), or the serialization of a JSON object (`jsonObj`,
carrying the raw text together with the object it parses to). -/
inductive FileContent where
  | plainText (raw : String)
  | jsonObj (raw : String) (o : JsonDoc)
deriving DecidableEq

/-- The raw text of a file. -/
def FileContent.rawText : FileContent → String
  | .plainText raw => raw
  | .jsonObj raw _ => raw

/-- A plain serializer standing in for `JSON.stringify(o, null, 2)`;
only the object a serialization parses back to matters downstream. -/
def stringifyField (k : String) (v : Option String) : List String :=
  match v with
  | none => []
  | some s => ["\"" ++ k ++ "\": \"" ++ s ++ "\""]

/-- Serialize a `JsonDoc` to JSON text. -/
def stringifyDoc (d : JsonDoc) : String :=
  "\x7b\n  " ++ String.intercalate ",\n  "
    (stringifyField "encrypted" d.encrypted ++
      stringifyField "salt" d.salt ++
      stringifyField "iv" d.iv ++
      stringifyField "algorithm" d.algorithm ++
      stringifyField "version" d.version ++
      stringifyField "createdAt" d.createdAt) ++ "\n\x7d"

/-! ## Client encryption utilities (`SettingsPage.jsx`) -/

/-- The constant `DEFAULT_ENCRYPTION_PASSWORD`, returned by `getDefaultPassword`. -/
def DEFAULT_ENCRYPTION_PASSWORD : String := "textx_default_key_2024"

/-- Model of `getDefaultPassword()`. -/
def getDefaultPassword : String := DEFAULT_ENCRYPTION_PASSWORD

/-- The object returned by the client `encryptText`. -/
structure ClientEnvelope where
  encrypted : String
  salt : String
  iv : String
  algorithm : String
  version : String
deriving DecidableEq

/-- The client envelope seen as the JSON object it becomes when
serialized and parsed back (all five fields present, no `createdAt`). -/
def ClientEnvelope.toDoc (e : ClientEnvelope) : JsonDoc :=
  { encrypted := some e.encrypted, salt := some e.salt, iv := some e.iv,
    algorithm := some e.algorithm, version := some e.version,
    createdAt := none }

/-- Model of `encryptText(plaintext, password)` in `SettingsPage.jsx`.
`saltRand` is the output of `crypto.getRandomValues(new Uint8Array(16))`
and `ivRand` of `crypto.getRandomValues(new Uint8Array(12))`, passed as
explicit random-tape arguments. -/
def encryptText (plaintext : String) (password : JsStr)
    (saltRand ivRand : List Nat) : ClientEnvelope :=
  let key := deriveKey password saltRand
  let encryptedBuffer := gcmEncrypt key ivRand (stringToArrayBuffer plaintext)
  { encrypted := arrayBufferToBase64 encryptedBuffer
    salt := arrayBufferToBase64 saltRand
    iv := arrayBufferToBase64 ivRand
    algorithm := "AES-256-GCM"
    version := "1.0" }

/-- Model of `decryptText(encryptedData, password)` in `SettingsPage.jsx`:
destructure `{encrypted, salt, iv, algorithm}`, reject any algorithm
other than `'AES-256-GCM'`, base64-decode the three buffers, re-derive
the key from the password and the envelope's salt, decrypt, and decode
the plaintext.  Every failure surfaces through the surrounding
`try/catch` as a single decryption-failed error. -/
def decryptText (encryptedData : JsonDoc) (password : JsStr) :
    Except String String :=
  if encryptedData.algorithm ≠ some "AES-256-GCM" then
    Except.error "解密失败: 不支持的加密算法"
  else
    match (encryptedData.encrypted.bind base64ToArrayBuffer).bind
        (fun encryptedBuffer =>
          (encryptedData.salt.bind base64ToArrayBuffer).bind
            (fun saltBuffer =>
              (encryptedData.iv.bind base64ToArrayBuffer).bind
                (fun ivBuffer =>
                  gcmDecrypt (deriveKey password saltBuffer) ivBuffer
                    encryptedBuffer))) with
    | some pt => Except.ok (arrayBufferToString pt)
    | none => Except.error "解密失败"

/-- Model of `isEncryptedData(content)` in `SettingsPage.jsx`: `JSON.parse` under
`try/catch`, then truthiness of `encrypted`, `salt`, `iv` and strict
equality of `algorithm` with `'AES-256-GCM'`. -/
def isEncryptedData (content : FileContent) : Bool :=
  match content with
  | .plainText _ => false
  | .jsonObj _ parsed =>
    truthy parsed.encrypted && truthy parsed.salt && truthy parsed.iv &&
      (parsed.algorithm = some "AES-256-GCM")

/-- Model of the test `/[A-Z]/.test(password)`. -/
def hasUpper (s : String) : Bool :=
  s.toList.any (fun c => 65 ≤ c.toNat && c.toNat ≤ 90)

/-- Model of the test `/[a-z]/.test(password)`. -/
def hasLower (s : String) : Bool :=
  s.toList.any (fun c => 97 ≤ c.toNat && c.toNat ≤ 122)

/-- Model of the test `/\d/.test(password)`. -/
def hasDigit (s : String) : Bool :=
  s.toList.any (fun c => 48 ≤ c.toNat && c.toNat ≤ 57)

/-- Model of the test `/[^A-Za-z0-9]/.test(password)`. -/
def hasSymbol (s : String) : Bool :=
  s.toList.any (fun c => !(65 ≤ c.toNat && c.toNat ≤ 90) &&
    !(97 ≤ c.toNat && c.toNat ≤ 122) && !(48 ≤ c.toNat && c.toNat ≤ 57))

/-- The object returned by `validatePasswordStrength`. -/
structure StrengthResult where
  score : Nat
  suggestions : List String
  isValid : Bool
deriving DecidableEq

/-- Model of `validatePasswordStrength(password)` in `SettingsPage.jsx`: an early
return for a falsy password, then five `score += 1` checks with
suggestions, a length-12 bonus, and `isValid = score >= 3`. -/
def validatePasswordStrength (password : String) : StrengthResult :=
  if password = "" then
    { score := 0, suggestions := ["请输入密码"], isValid := false }
  else
    let score1 : Nat := if 8 ≤ jsStrLen password then 1 else 0
    let score2 : Nat := score1 + (if hasUpper password then 1 else 0)
    let score3 : Nat := score2 + (if hasLower password then 1 else 0)
    let score4 : Nat := score3 + (if hasDigit password then 1 else 0)
    let score5 : Nat := score4 + (if hasSymbol password then 1 else 0)
    let score6 : Nat := score5 + (if 12 ≤ jsStrLen password then 1 else 0)
    { score := score6
      suggestions :=
        (if 8 ≤ jsStrLen password then [] else ["密码至少需要8个字符"]) ++
          (if hasUpper password then [] else ["添加大写字母"]) ++
          (if hasLower password then [] else ["添加小写字母"]) ++
          (if hasDigit password then [] else ["添加数字"]) ++
          (if hasSymbol password then [] else ["添加特殊字符"])
      isValid := decide (3 ≤ score6) }

/-- Helper: decrypting any well-formed envelope whose ciphertext was
produced by the modeled cipher under the key derived from the same
password and the envelope's salt returns the plaintext, for every
`version` and `createdAt` value, every password (including `null` and
the empty string) and every salt (of any length). -/
theorem decryptText_gcm_ok (P : String) (K : JsStr) (salt iv : List Nat)
    (v cAt : Option String) (hs : ∀ b ∈ salt, b < 256)
    (hi : ∀ b ∈ iv, b < 256) :
    decryptText
        { encrypted := some (arrayBufferToBase64
            (gcmEncrypt (deriveKey K salt) iv (stringToArrayBuffer P)))
          salt := some (arrayBufferToBase64 salt)
          iv := some (arrayBufferToBase64 iv)
          algorithm := some "AES-256-GCM"
          version := v
          createdAt := cAt } K = Except.ok P := by
  have hct : ∀ x ∈ gcmEncrypt (deriveKey K salt) iv
      (stringToArrayBuffer P), x < 256 := gcmEncrypt_lt _ _ _
  have hpt : ∀ x ∈ stringToArrayBuffer P, x < 256 :=
    fun x hx => utf8EncodeList_lt P.toList x hx
  unfold decryptText
  dsimp only
  rw [if_neg (by simp)]
  rw [Option.some_bind, base64_roundtrip _ hct, Option.some_bind,
    Option.some_bind, base64_roundtrip _ hs, Option.some_bind,
    Option.some_bind, base64_roundtrip _ hi, Option.some_bind,
    gcmDecrypt_gcmEncrypt _ _ _ hpt]
  dsimp only
  rw [string_buffer_roundtrip]

/-- C1: for every plaintext `P` and password `K`, decrypting the result
of the client `encryptText(P, K)` with the same password `K` returns
exactly `P`: the key is re-derived from the envelope's own salt, the
cipher inverts under the same key and IV, and the base64/UTF-8 codecs
round-trip. -/
theorem client_encrypt_decrypt_roundtrip (P : String) (K : JsStr)
    (salt iv : List Nat) (hs : ∀ b ∈ salt, b < 256)
    (hi : ∀ b ∈ iv, b < 256) :
    decryptText (encryptText P K salt iv).toDoc K = Except.ok P :=
  decryptText_gcm_ok P K salt iv (some "1.0") none hs hi

/-- Witness for C1 at a concrete plaintext, password, salt and IV. -/
theorem client_encrypt_decrypt_roundtrip_witness :
    (∀ b ∈ List.range 16, b < 256) ∧ (∀ b ∈ List.range 12, b < 256) ∧
      decryptText
          (encryptText "hello" (some "Secret123!") (List.range 16)
            (List.range 12)).toDoc (some "Secret123!") =
        Except.ok "hello" :=
  ⟨by decide, by decide,
    client_encrypt_decrypt_roundtrip "hello" (some "Secret123!")
      (List.range 16) (List.range 12) (by decide) (by decide)⟩

/-- C8: the strength score is the sum of the six one-point bonuses
(length at least 8, an uppercase letter, a lowercase letter, a digit, a
non-alphanumeric symbol, length at least 12), so it lies in `0..6`, and
`isValid` holds exactly when the score is at least 3. -/
theorem passwordStrength_additive (p : String) :
    (validatePasswordStrength p).score =
        (if 8 ≤ jsStrLen p then 1 else 0) +
          (if hasUpper p then 1 else 0) + (if hasLower p then 1 else 0) +
          (if hasDigit p then 1 else 0) + (if hasSymbol p then 1 else 0) +
          (if 12 ≤ jsStrLen p then 1 else 0) ∧
      (validatePasswordStrength p).score ≤ 6 ∧
      ((validatePasswordStrength p).isValid = true ↔
        3 ≤ (validatePasswordStrength p).score) := by
  by_cases hp : p = ""
  · subst hp; decide
  · simp only [validatePasswordStrength, if_neg hp]
    refine ⟨trivial, ?_, ?_⟩
    · split_ifs <;> omega
    · simp only [decide_eq_true_eq]

/-! ## Envelope serialization helpers (`EncryptionManager.jsx`) -/

/-- Model of `formatEncryptedForSave(encryptedData)`:
`JSON.stringify({...encryptedData, createdAt: new Date().toISOString(),
version: '1.0'}, null, 2)`.  The spread keeps every field of the input
and then the literal overwrites `createdAt` with the current time
(`now`, passed explicitly) and `version` with `'1.0'`. -/
def formatEncryptedForSave (encryptedData : JsonDoc) (now : String) :
    FileContent :=
  FileContent.jsonObj
    (stringifyDoc
      { encryptedData with createdAt := some now, version := some "1.0" })
    { encryptedData with createdAt := some now, version := some "1.0" }

/-- Model of `parseEncryptedFromSave(fileContent)`: `JSON.parse` under
`try/catch` returning `null` on a parse failure; the parsed object is
returned exactly when `parsed.encrypted && parsed.salt && parsed.iv`
is truthy, and `null` otherwise.  The `algorithm` and `version` fields
are not consulted. -/
def parseEncryptedFromSave (fileContent : FileContent) : Option JsonDoc :=
  match fileContent with
  | .plainText _ => none
  | .jsonObj _ parsed =>
    if truthy parsed.encrypted && truthy parsed.salt && truthy parsed.iv
    then some parsed
    else none

/-! ## Document open workflow (`EditorPage.jsx`, `handleOpenDocument`) -/

/-- The visible effects of one run of `handleOpenDocument` on the file's
content: which content (and `isEncrypted` flag) was installed via
`setDocumentContent`/`setDocumentInfo`, what `currentPasswordRef.current`
was assigned, and whether the password dialog (`setEncryptionDialog`
with `isOpen: true, mode: 'decrypt'`) was shown.  `none` in the first
three fields means the corresponding state was left untouched. -/
structure OpenEffects where
  openedContent : Option String
  openedIsEncrypted : Option Bool
  sessionPassword : Option JsStr
  promptShown : Bool
deriving DecidableEq

/-- Model of `handleOpenDocument` after the file has been read: classify the
content with `parseEncryptedFromSave`; for an envelope, first attempt
`decryptText` with `getDefaultPassword()` and only open the password
dialog if that attempt throws; otherwise open the raw text as a plain
document and clear the session password. -/
def handleOpenDocument (content : FileContent) : OpenEffects :=
  match parseEncryptedFromSave content with
  | some encryptedData =>
    match decryptText encryptedData (some getDefaultPassword) with
    | Except.ok decryptedContent =>
      { openedContent := some decryptedContent
        openedIsEncrypted := some true
        sessionPassword := some (some getDefaultPassword)
        promptShown := false }
    | Except.error _ =>
      { openedContent := none
        openedIsEncrypted := none
        sessionPassword := none
        promptShown := true }
  | none =>
    { openedContent := some content.rawText
      openedIsEncrypted := some false
      sessionPassword := some none
      promptShown := false }

/-! ## Document save workflow (`EditorPage.jsx`, `handleSaveDocument`) -/

/-- The slice of `currentDocument` state read or written by
`handleSaveDocument`. -/
structure DocState where
  content : String
  filePath : Option String
  fileName : Option String
  hasFileHandle : Bool
  isModified : Bool
  isEncrypted : Bool
deriving DecidableEq

/-- The outcome of one `handleSaveDocument` call: the early-error and
dialog returns, a save through the save-file picker, or an overwrite
through the stored file handle. -/
inductive SaveOutcome where
  | emptyContentError
  | dialogShown
  | savedNew (written : FileContent) (fileExtension : String)
      (isEncrypted : Bool)
  | overwritten (written : FileContent) (isEncrypted : Bool)
  | noHandleError
deriving DecidableEq

/-- Model of `handleSaveDocument(saveMode, password, isAutoSave)`: rejects an
empty (trimmed) document before anything else; with no mode it only
shows the save dialog; with mode `'default'` or `'custom'` it encrypts
(`'default'` replaces the password by `getDefaultPassword()`; `'custom'`
uses the `password` argument as passed, with no missing-password check)
and serializes with `formatEncryptedForSave`; any other mode saves the
plain content.  `saltRand`/`ivRand` are the random tape for
`encryptText`, `now` the timestamp, and `pickedName` the file name
chosen in the save-file picker.  Returns the outcome together with the
updated document state. -/
def handleSaveDocument (doc : DocState) (saveMode : Option String)
    (password : JsStr) (saltRand ivRand : List Nat) (now : String)
    (pickedName : String) : SaveOutcome × DocState :=
  if jsTrim doc.content = "" then (SaveOutcome.emptyContentError, doc)
  else
    match saveMode with
    | none => (SaveOutcome.dialogShown, doc)
    | some mode =>
      let encrypting := mode = "default" || mode = "custom"
      let finalPassword : JsStr :=
        if mode = "default" then some getDefaultPassword else password
      let contentToSave : FileContent :=
        if encrypting then
          formatEncryptedForSave
            (encryptText doc.content finalPassword saltRand ivRand).toDoc
            now
        else FileContent.plainText doc.content
      let fileExtension := if encrypting then ".enc.md" else ".md"
      if doc.filePath = none then
        (SaveOutcome.savedNew contentToSave fileExtension encrypting,
          { doc with
            filePath := some pickedName
            fileName := some pickedName
            hasFileHandle := true
            isEncrypted := encrypting
            isModified := false })
      else if doc.hasFileHandle then
        (SaveOutcome.overwritten contentToSave encrypting,
          { doc with isModified := false })
      else (SaveOutcome.noHandleError, doc)

/-! ## Server-side encryption and save route (document routes) -/

/-- The object returned by the server `encryptText`. -/
structure ServerEnvelope where
  encrypted : String
  iv : String
  authTag : Option String
deriving DecidableEq

/-- Hex digit characters. -/
def hexDigit (n : Nat) : Char :=
  if n < 10 then Char.ofNat (48 + n) else Char.ofNat (87 + n)

/-- Model of `Buffer.toString('hex')`. -/
def hexEncodeBytes : List Nat → List Char
  | [] => []
  | b :: bs => hexDigit (b / 16) :: hexDigit (b % 16) :: hexEncodeBytes bs

/-- Hex encoding of a byte buffer as a string. -/
def hexEncode (bs : List Nat) : String := ⟨hexEncodeBytes bs⟩

/-- Modeled `EVP_BytesToKey` derivation performed by the deprecated
`crypto.createCipher(algorithm, password)`: both the cipher key and the
cipher IV are deterministic functions of the password alone — no salt
and no caller-supplied IV enter the derivation. -/
def createCipherKey (password : String) : DerivedKey := ⟨password, []⟩

/-- The IV `crypto.createCipher` actually hands to the cipher: a
deterministic function of the password alone. -/
def createCipherIV (password : String) : List Nat :=
  (stringToArrayBuffer password ++ List.replicate 16 0).take 16

/-- The server `encryptText(text, password)`: it draws 16 random bytes
into `iv` (`ivRand` here) but then builds the cipher with
`crypto.createCipher(ENCRYPTION_ALGORITHM, password)`, which never sees
that `iv`; the random bytes are only reported back in the `iv` field of
the result. -/
def serverEncryptText (text : String) (password : String)
    (ivRand : List Nat) : ServerEnvelope :=
  { encrypted :=
      hexEncode
        (streamEnc (createCipherKey password) (createCipherIV password) 0
          (stringToArrayBuffer text))
    iv := hexEncode ivRand
    authTag :=
      some
        (hexEncode
          (gcmTag (createCipherKey password) (createCipherIV password)
            (streamEnc (createCipherKey password)
              (createCipherIV password) 0 (stringToArrayBuffer text)))) }

/-- Model of `JSON.stringify(encryptedData, null, 2)` for the server envelope. -/
def stringifyServerEnvelope (e : ServerEnvelope) : String :=
  "\x7b\n  " ++ String.intercalate ",\n  "
    (["\"encrypted\": \"" ++ e.encrypted ++ "\""] ++
      ["\"iv\": \"" ++ e.iv ++ "\""] ++
      stringifyField "authTag" e.authTag) ++ "\n\x7d"

/-- The request body of `POST /api/documents/save`. -/
structure SaveRequest where
  filePath : Option String
  content : Option String
  encrypted : Bool
  password : Option String
deriving DecidableEq

/-- The observable result of the save route: a 400 rejection (nothing
written) or a successful write of the final content. -/
inductive ServerSaveResult where
  | badRequest (message : String)
  | saved (finalContent : String) (isEncrypted : Bool)
deriving DecidableEq

/-- Model of `POST /api/documents/save`: rejects a falsy `filePath` or undefined
`content` with 400; when `encrypted` is truthy it rejects a falsy
`password` with 400 (`'加密保存需要提供密码'`) before any encryption or
file write, and otherwise writes `JSON.stringify(encryptText(content,
password))`; without encryption it writes the content unchanged. -/
def serverSaveRoute (req : SaveRequest) (ivRand : List Nat) :
    ServerSaveResult :=
  if truthy req.filePath = false ∨ req.content = none then
    ServerSaveResult.badRequest "文件路径和内容不能为空"
  else
    match req.content with
    | none => ServerSaveResult.badRequest "文件路径和内容不能为空"
    | some content =>
      if req.encrypted then
        if truthy req.password = false then
          ServerSaveResult.badRequest "加密保存需要提供密码"
        else
          ServerSaveResult.saved
            (stringifyServerEnvelope
              (serverEncryptText content (jsToString req.password) ivRand))
            true
      else ServerSaveResult.saved content false


/-- C3: for content classified as an envelope, `handleOpenDocument`
first attempts decryption with `getDefaultPassword()`; on success the
document opens with no password prompt, the session password is set to
the fallback secret and `isEncrypted` is `true`; the password prompt is
shown exactly when that fallback decryption fails. -/
theorem fallback_first_open (content : FileContent) (env : JsonDoc)
    (hp : parseEncryptedFromSave content = some env) :
    (∀ pt, decryptText env (some getDefaultPassword) = Except.ok pt →
        handleOpenDocument content =
          { openedContent := some pt
            openedIsEncrypted := some true
            sessionPassword := some (some getDefaultPassword)
            promptShown := false }) ∧
      ((handleOpenDocument content).promptShown = true ↔
        ∃ e, decryptText env (some getDefaultPassword) = Except.error e) := by
  constructor
  · intro pt hdec
    unfold handleOpenDocument
    rw [hp]
    dsimp only
    rw [hdec]
  · unfold handleOpenDocument
    rw [hp]
    dsimp only
    cases hdec : decryptText env (some getDefaultPassword) with
    | ok pt => simp
    | error e => simp

/-- The concrete envelope used by the C3 witness: `"hi"` encrypted with
the default password. -/
def fallbackEnv : JsonDoc :=
  (encryptText "hi" (some getDefaultPassword) (List.range 16)
    (List.range 12)).toDoc

/-- The concrete file content used by the C3 witness. -/
def fallbackContent : FileContent :=
  FileContent.jsonObj (stringifyDoc fallbackEnv) fallbackEnv

/-- Witness for C3: a file encrypted with the default password opens
silently with the session password set to the fallback secret. -/
theorem fallback_first_open_witness :
    parseEncryptedFromSave fallbackContent = some fallbackEnv ∧
      handleOpenDocument fallbackContent =
        { openedContent := some "hi"
          openedIsEncrypted := some true
          sessionPassword := some (some getDefaultPassword)
          promptShown := false } :=
  ⟨by decide,
    (fallback_first_open fallbackContent fallbackEnv (by decide)).1 "hi"
      (decryptText_gcm_ok "hi" (some getDefaultPassword) (List.range 16)
        (List.range 12) (some "1.0") none (by decide) (by decide))⟩

/-- C10: `handleSaveDocument` rejects an empty or whitespace-only
document in every mode (including plain saves and the dialog path):
nothing is encrypted or written, and the document state is returned
unchanged. -/
theorem empty_document_save_rejected (doc : DocState)
    (saveMode : Option String) (password : JsStr)
    (saltRand ivRand : List Nat) (now pickedName : String)
    (h : jsTrim doc.content = "") :
    handleSaveDocument doc saveMode password saltRand ivRand now
        pickedName = (SaveOutcome.emptyContentError, doc) := by
  unfold handleSaveDocument
  rw [if_pos h]

/-- Witness for C10 at a whitespace-only document in plain mode. -/
theorem empty_document_save_rejected_witness :
    jsTrim "  \n\t " = "" ∧
      handleSaveDocument
          { content := "  \n\t ", filePath := some "a.md",
            fileName := some "a.md", hasFileHandle := true,
            isModified := true, isEncrypted := false }
          (some "plain") none (List.range 16) (List.range 12) "t" "p" =
        (SaveOutcome.emptyContentError,
          { content := "  \n\t ", filePath := some "a.md",
            fileName := some "a.md", hasFileHandle := true,
            isModified := true, isEncrypted := false }) :=
  ⟨by decide,
    empty_document_save_rejected _ (some "plain") none (List.range 16)
      (List.range 12) "t" "p" (by decide)⟩

/-- A valid envelope whose `version` is `"2.0"`, for the C4
counterexample. -/
def envV20 : JsonDoc :=
  { encrypted := some "QQ==", salt := some "c2FsdA==",
    iv := some "aXY=", algorithm := some "AES-256-GCM",
    version := some "2.0", createdAt := none }

/-- Counterexample for C4: the serialize/parse pair is not the identity
on envelopes — `formatEncryptedForSave` adds a `createdAt` field and
overwrites `version` with `"1.0"`, so parsing the serialized form of a
valid envelope with `version = "2.0"` does not return it. -/
theorem envelope_roundtrip_counterexample :
    parseEncryptedFromSave
        (formatEncryptedForSave envV20 "2024-01-01T00:00:00.000Z") ≠
      some envV20 := by decide

/-- C4 as amended: for every envelope with truthy `encrypted`, `salt`
and `iv` fields, parsing the serialized form returns the envelope with
`createdAt` overwritten by the serialization time and `version`
overwritten by `"1.0"`; all other fields are preserved and no other
field is added. -/
theorem envelope_roundtrip_amended (d : JsonDoc) (now : String)
    (he : truthy d.encrypted = true) (hs : truthy d.salt = true)
    (hi : truthy d.iv = true) :
    parseEncryptedFromSave (formatEncryptedForSave d now) =
      some { d with version := some "1.0", createdAt := some now } := by
  unfold formatEncryptedForSave parseEncryptedFromSave
  dsimp only
  rw [if_pos (by rw [he, hs, hi]; rfl)]

/-- Witness for the amended C4 at a concrete envelope and timestamp. -/
theorem envelope_roundtrip_amended_witness :
    truthy envV20.encrypted = true ∧ truthy envV20.salt = true ∧
      truthy envV20.iv = true ∧
      parseEncryptedFromSave
          (formatEncryptedForSave envV20 "2024-01-01T00:00:00.000Z") =
        some { envV20 with
               version := some "1.0"
               createdAt := some "2024-01-01T00:00:00.000Z" } :=
  ⟨by decide, by decide, by decide,
    envelope_roundtrip_amended envV20 "2024-01-01T00:00:00.000Z"
      (by decide) (by decide) (by decide)⟩

/-- A well-formed envelope carrying the unknown version `"999"`, used by
the C7 counterexample: ciphertext of `"hi"` under password `"pw"`. -/
def envV999 : JsonDoc :=
  { encrypted := some (arrayBufferToBase64
      (gcmEncrypt (deriveKey (some "pw") (List.range 16)) (List.range 12)
        (stringToArrayBuffer "hi")))
    salt := some (arrayBufferToBase64 (List.range 16))
    iv := some (arrayBufferToBase64 (List.range 12))
    algorithm := some "AES-256-GCM"
    version := some "999"
    createdAt := none }

/-- Counterexample for C7: an envelope whose `version` field holds the
unknown value `"999"` is not rejected — `parseEncryptedFromSave` returns
it as a valid envelope and `decryptText` decrypts it normally. -/
theorem version_ignored_counterexample :
    parseEncryptedFromSave (FileContent.jsonObj "raw" envV999) =
        some envV999 ∧
      decryptText envV999 (some "pw") = Except.ok "hi" :=
  ⟨by decide,
    decryptText_gcm_ok "hi" (some "pw") (List.range 16) (List.range 12)
      (some "999") none (by decide) (by decide)⟩

/-- C7 as amended: neither `parseEncryptedFromSave` nor `decryptText`
consults the `version` field at all — replacing it with any value leaves
both results unchanged (up to the replaced field in the parsed object),
so unknown versions are accepted rather than rejected. -/
theorem parse_decrypt_ignore_version (raw : String) (o : JsonDoc)
    (v : Option String) :
    parseEncryptedFromSave
          (FileContent.jsonObj raw { o with version := v }) =
        (parseEncryptedFromSave (FileContent.jsonObj raw o)).map
          (fun d => { d with version := v }) ∧
      ∀ pw, decryptText { o with version := v } pw = decryptText o pw := by
  constructor
  · unfold parseEncryptedFromSave
    dsimp only
    by_cases h : (truthy o.encrypted && truthy o.salt && truthy o.iv) = true
    · rw [if_pos h, if_pos h, Option.map_some']
    · rw [if_neg h, if_neg h, Option.map_none']
  · intro pw
    rfl

/-- C9: `parseEncryptedFromSave` classifies content as encrypted from
the truthiness of `encrypted`, `salt` and `iv` alone, ignoring
`algorithm` and `version` entirely; content with an unrecognized
algorithm is therefore still routed to the decrypt path of
`handleOpenDocument` (where the fallback `decryptText` fails and the
password prompt is shown, for every password), disagreeing with
`isEncryptedData`, which additionally requires
`algorithm == 'AES-256-GCM'`. -/
theorem classifier_algorithm_mismatch (raw : String) (o : JsonDoc)
    (a : String) (he : truthy o.encrypted = true)
    (hs : truthy o.salt = true) (hi : truthy o.iv = true)
    (ha : o.algorithm = some a) (hne : a ≠ "AES-256-GCM") :
    parseEncryptedFromSave (FileContent.jsonObj raw o) = some o ∧
      isEncryptedData (FileContent.jsonObj raw o) = false ∧
      (handleOpenDocument (FileContent.jsonObj raw o)).promptShown =
        true ∧
      (∀ pw, decryptText o pw =
        Except.error "解密失败: 不支持的加密算法") ∧
      ∀ a' v',
        parseEncryptedFromSave
            (FileContent.jsonObj raw
              { o with algorithm := a', version := v' }) =
          some { o with algorithm := a', version := v' } := by
  have hparse : parseEncryptedFromSave (FileContent.jsonObj raw o) =
      some o := by
    unfold parseEncryptedFromSave
    dsimp only
    rw [if_pos (by rw [he, hs, hi]; rfl)]
  have hdec : ∀ pw, decryptText o pw =
      Except.error "解密失败: 不支持的加密算法" := by
    intro pw
    unfold decryptText
    rw [if_pos (by rw [ha]; simp [hne])]
  refine ⟨hparse, ?_, ?_, hdec, ?_⟩
  · unfold isEncryptedData
    dsimp only
    rw [ha]
    simp [hne]
  · unfold handleOpenDocument
    rw [hparse]
    dsimp only
    rw [hdec (some getDefaultPassword)]
  · intro a' v'
    unfold parseEncryptedFromSave
    dsimp only
    rw [if_pos (by rw [he, hs, hi]; rfl)]

/-- The concrete JSON object with an unrecognized algorithm used by the
C9 witness. -/
def envAlgFoo : JsonDoc :=
  { encrypted := some "x", salt := some "y", iv := some "z",
    algorithm := some "foo", version := some "1.0", createdAt := none }

/-- Witness for C9 at a concrete object with `algorithm = "foo"`. -/
theorem classifier_algorithm_mismatch_witness :
    truthy envAlgFoo.encrypted = true ∧
      envAlgFoo.algorithm = some "foo" ∧
      (parseEncryptedFromSave (FileContent.jsonObj "r" envAlgFoo) =
          some envAlgFoo ∧
        isEncryptedData (FileContent.jsonObj "r" envAlgFoo) = false ∧
        (handleOpenDocument
            (FileContent.jsonObj "r" envAlgFoo)).promptShown = true ∧
        (∀ pw, decryptText envAlgFoo pw =
          Except.error "解密失败: 不支持的加密算法") ∧
        ∀ a' v',
          parseEncryptedFromSave
              (FileContent.jsonObj "r"
                { envAlgFoo with algorithm := a', version := v' }) =
            some { envAlgFoo with algorithm := a', version := v' }) :=
  ⟨by decide, by decide,
    classifier_algorithm_mismatch "r" envAlgFoo "foo" (by decide)
      (by decide) (by decide) (by decide) (by decide)⟩

/-- Counterexample for C5: `deriveKey` raises no error on the empty
password or on a salt shorter than 16 bytes — it derives a key from the
empty password and the 3-byte salt `[1, 2, 3]`, and the decryption
pipeline under that key succeeds rather than failing with an
`InvalidInputError`. -/
theorem deriveKey_no_validation_counterexample :
    deriveKey (some "") [1, 2, 3] =
        { password := "", salt := [1, 2, 3] } ∧
      decryptText
          { encrypted := some (arrayBufferToBase64
              (gcmEncrypt (deriveKey (some "") [1, 2, 3])
                (List.range 12) (stringToArrayBuffer "hi")))
            salt := some (arrayBufferToBase64 [1, 2, 3])
            iv := some (arrayBufferToBase64 (List.range 12))
            algorithm := some "AES-256-GCM"
            version := some "1.0"
            createdAt := none } (some "") = Except.ok "hi" :=
  ⟨rfl,
    decryptText_gcm_ok "hi" (some "") [1, 2, 3] (List.range 12)
      (some "1.0") none (by decide) (by decide)⟩

/-- C5 as amended: `deriveKey` performs no input validation at all — for
every password (including the empty string and `null`) and every salt of
any length (including lengths below 16 bytes) it derives the key
determined by the coerced password and the salt, and the full
encrypt/decrypt pipeline under that key succeeds; the code has no
`InvalidInputError` path. -/
theorem deriveKey_accepts_all_inputs (P : String) (pw : JsStr)
    (salt iv : List Nat) (hs : ∀ b ∈ salt, b < 256)
    (hi : ∀ b ∈ iv, b < 256) :
    deriveKey pw salt = { password := jsToString pw, salt := salt } ∧
      decryptText (encryptText P pw salt iv).toDoc pw = Except.ok P :=
  ⟨rfl, decryptText_gcm_ok P pw salt iv (some "1.0") none hs hi⟩

/-- Witness for the amended C5 at the empty password and a 2-byte
salt. -/
theorem deriveKey_accepts_all_inputs_witness :
    (∀ b ∈ [5, 6], b < 256) ∧ (∀ b ∈ List.range 12, b < 256) ∧
      (deriveKey (some "") [5, 6] =
          { password := "", salt := [5, 6] } ∧
        decryptText (encryptText "hi" (some "") [5, 6]
            (List.range 12)).toDoc (some "") = Except.ok "hi") :=
  ⟨by decide, by decide,
    deriveKey_accepts_all_inputs "hi" (some "") [5, 6] (List.range 12)
      (by decide) (by decide)⟩

/-- The document state used by the C6 counterexample and witness. -/
def docHello : DocState :=
  { content := "hello", filePath := none,
    fileName := some "untitled.md", hasFileHandle := false,
    isModified := true, isEncrypted := false }

/-- Counterexample for C6: the client `handleSaveDocument` with
`saveMode = 'custom'` and a `null` password does not fail with a
missing-password error — it encrypts the content (the `null` password is
coerced by `TextEncoder` to the string `"null"`) and saves the
envelope. -/
theorem custom_save_null_password_counterexample :
    (handleSaveDocument docHello (some "custom") none (List.range 16)
        (List.range 12) "t" "out.enc.md").1 =
      SaveOutcome.savedNew
        (formatEncryptedForSave
          (encryptText "hello" none (List.range 16)
            (List.range 12)).toDoc "t")
        ".enc.md" true := rfl

/-- C6 as amended: only the server save route rejects an encrypted save
with an absent or empty password (with a 400 error, before anything is
written); the client `handleSaveDocument` performs no such check — with
mode `'custom'` it encrypts with whatever password value was passed,
including `null`. -/
theorem missing_password_amended (req : SaveRequest) (ivR : List Nat)
    (hf : truthy req.filePath = true) (hc : req.content ≠ none)
    (he : req.encrypted = true) (hpw : truthy req.password = false)
    (doc : DocState) (pw : JsStr) (saltRand ivRand : List Nat)
    (now pickedName : String) (hne : ¬ jsTrim doc.content = "")
    (hfp : doc.filePath = none) :
    serverSaveRoute req ivR =
        ServerSaveResult.badRequest "加密保存需要提供密码" ∧
      (handleSaveDocument doc (some "custom") pw saltRand ivRand now
          pickedName).1 =
        SaveOutcome.savedNew
          (formatEncryptedForSave
            (encryptText doc.content pw saltRand ivRand).toDoc now)
          ".enc.md" true := by
  constructor
  · unfold serverSaveRoute
    rw [if_neg (by simp [hf, hc])]
    rcases hcc : req.content with _ | content
    · exact absurd hcc hc
    · dsimp only
      rw [he]
      rw [if_pos rfl, if_pos hpw]
  · unfold handleSaveDocument
    rw [if_neg hne]
    dsimp only
    rw [if_pos hfp]
    rfl

/-- Witness for the amended C6 at a concrete request and document. -/
theorem missing_password_amended_witness :
    truthy (SaveRequest.mk (some "/tmp/a.md") (some "hello") true
        none).filePath = true ∧
      ¬ jsTrim docHello.content = "" ∧
      (serverSaveRoute
            (SaveRequest.mk (some "/tmp/a.md") (some "hello") true none)
            (List.range 16) =
          ServerSaveResult.badRequest "加密保存需要提供密码" ∧
        (handleSaveDocument docHello (some "custom") (some "")
            (List.range 16) (List.range 12) "t" "o.enc.md").1 =
          SaveOutcome.savedNew
            (formatEncryptedForSave
              (encryptText docHello.content (some "") (List.range 16)
                (List.range 12)).toDoc "t")
            ".enc.md" true) :=
  ⟨by decide, by decide,
    missing_password_amended
      (SaveRequest.mk (some "/tmp/a.md") (some "hello") true none)
      (List.range 16) (by decide) (by decide) (by decide) (by decide)
      docHello (some "") (List.range 16) (List.range 12) "t" "o.enc.md"
      (by decide) (by decide)⟩

/-- C2 (the code defect): the server `encryptText` never hands its
freshly drawn random `iv` to the cipher — `crypto.createCipher` derives
both the key and the IV it actually uses from the password alone, so two
calls with the same plaintext and password produce identical
ciphertexts and identical authentication tags no matter which random
bytes were drawn; the random bytes surface only in the reported `iv`
field. -/
theorem server_encrypt_ignores_random_iv (text password : String)
    (iv1 iv2 : List Nat) :
    (serverEncryptText text password iv1).encrypted =
        (serverEncryptText text password iv2).encrypted ∧
      (serverEncryptText text password iv1).authTag =
        (serverEncryptText text password iv2).authTag ∧
      (serverEncryptText text password iv1).iv = hexEncode iv1 :=
  ⟨rfl, rfl, rfl⟩
